import Mathlib

/-!
Verification of the ofxCGAL point-cloud pipeline (src/ofxCGAL.cpp).

The repository is a thin wrapper around CGAL point-set-processing calls.
The wrapper logic (which arguments are forwarded, which constants are
hardcoded, the erase-remove compaction, the resize/assign loop, the early
returns) is embedded directly from src/ofxCGAL.cpp.  The CGAL library
itself and the repository's header (typedefs, `convert`) are not part of
src/, so their behaviour is modelled from the specification: concrete
rational-arithmetic models where the spec pins the algorithm down
(grid cells, outlier scores, removal counts), and explicit function
parameters where the spec leaves the numeric fit abstract (jet fitting,
PCA normals, MST orientation flags, the Poisson solver).
-/

namespace ofxCGAL

/-- A 3D point with real-valued coordinates, modelled over `ℚ`
(CGAL `Point_3`; the header typedef is not in src/, modelled from the
spec's data model "a position in 3D space (x, y, z)"). -/
structure Point_3 where
  x : ℚ
  y : ℚ
  z : ℚ
deriving DecidableEq

/-- Modelled from the spec: a normal is a 3D direction vector
(CGAL `Vector_3`). -/
abbrev Vector_3 := Point_3

/-- The origin, used as the `getD` default element. -/
def z0 : Point_3 := ⟨0, 0, 0⟩

/-- `PointList` = `std::vector<Point_3>` from the missing header,
modelled from the spec: an ordered sequence of points. -/
abbrev PointList := List Point_3

/-- `PointVectorPair` = `std::pair<Point_3, Vector_3>`. -/
abbrev PointVectorPair := Point_3 × Vector_3

/-- Default pair used when `resize` has to grow the vector
(C++ value-initialisation). -/
def pv0 : PointVectorPair := (z0, z0)

/-- `PointVectorList` = `std::vector<PointVectorPair>`. -/
abbrev PointVectorList := List PointVectorPair

/-! ## Grid Simplifier (src/ofxCGAL.cpp lines 24-37)

`simplifyCloud` forwards the cloud and `cell_size` unchecked to
`CGAL::grid_simplify_point_set` and erases the tail the library hands
back.  The library is modelled from the spec (4.2 and the §9 invariant):
partition space into cubes of side `cell_size`, keep the first point of
each occupied cell, retained points keep their relative order. -/

/-- Modelled from the spec: the grid cell of a point for cube side
`cell_size` (coordinate-wise floor of the scaled coordinates). -/
def gridCell (cell_size : ℚ) (p : Point_3) : ℤ × ℤ × ℤ :=
  (⌊p.x / cell_size⌋, ⌊p.y / cell_size⌋, ⌊p.z / cell_size⌋)

/-- Modelled from the spec: point `i` is marked for removal by the grid
simplifier iff an earlier point occupies the same grid cell. -/
def gridMarked (cell_size : ℚ) (l : PointList) (i : ℕ) : Bool :=
  decide (gridCell cell_size (l.getD i z0) ∈ (l.take i).map (gridCell cell_size))

/-- src/ofxCGAL.cpp lines 24-37: grid simplification with the
erase-remove idiom; the retained points are exactly the unmarked ones,
in input order.  No validation of `cell_size` is performed and the
function has no error channel (C++ return type `void`). -/
def simplifyCloud (points : PointList) (cell_size : ℚ) : PointList :=
  ((List.range points.length).filter
      (fun i => ! gridMarked cell_size points i)).map
    (fun i => points.getD i z0)

/-! ### Generic lemmas about index-filter compaction -/

theorem map_getD_range (l : List Point_3) :
    (List.range l.length).map (fun i => l.getD i z0) = l := by
  induction l with
  | nil => rfl
  | cons p rest ih =>
    simp only [List.length_cons, List.range_succ_eq_map, List.map_cons,
      List.map_map, List.getD_cons_zero]
    refine congrArg (p :: ·) ?_
    calc (List.range rest.length).map
          ((fun i => (p :: rest).getD i z0) ∘ (· + 1))
        = (List.range rest.length).map (fun i => rest.getD i z0) := by
          refine List.map_congr_left ?_
          intro i _
          simp [Function.comp, List.getD_cons_succ]
      _ = rest := ih

theorem filterIdx_sublist (l : List Point_3) (q : ℕ → Bool) :
    (((List.range l.length).filter q).map (fun i => l.getD i z0)).Sublist l := by
  have h := ((List.filter_sublist (l := List.range l.length) (p := q)).map
    (fun i => l.getD i z0))
  rwa [map_getD_range] at h

/-! ### Grid-simplifier lemmas -/

theorem gridMarked_eq_false_of_nodup (s : ℚ) (l : PointList)
    (hn : (l.map (gridCell s)).Nodup) (i : ℕ) (hi : i < l.length) :
    gridMarked s l i = false := by
  unfold gridMarked
  rw [decide_eq_false_iff_not]
  intro hmem
  rcases List.mem_map.mp hmem with ⟨q, hq, hkey⟩
  rcases List.mem_iff_getElem.mp hq with ⟨j, hj, rfl⟩
  have hjlen : j < i := lt_of_lt_of_le hj (by simp [List.length_take])
  have hjl : j < l.length := lt_of_lt_of_le hj (by simp [List.length_take])
  rw [List.getElem_take] at hkey
  have hjm : j < (l.map (gridCell s)).length := by simpa using hjl
  have him : i < (l.map (gridCell s)).length := by simpa using hi
  have hmapeq : (l.map (gridCell s))[j] = (l.map (gridCell s))[i] := by
    rw [List.getElem_map, List.getElem_map, hkey, List.getD_eq_getElem l z0 hi]
  exact absurd (hn.getElem_inj_iff.mp hmapeq) (Nat.ne_of_lt hjlen)

theorem simplifyCloud_keys_nodup (points : PointList) (s : ℚ) :
    ((simplifyCloud points s).map (gridCell s)).Nodup := by
  unfold simplifyCloud
  rw [List.map_map]
  have hlt : ((List.range points.length).filter
      (fun i => ! gridMarked s points i)).Pairwise (· < ·) :=
    List.Pairwise.sublist (List.filter_sublist _)
      (List.pairwise_lt_range points.length)
  refine List.pairwise_map.mpr (hlt.imp_of_mem ?_)
  intro i j hi hj hij
  have hi' := List.mem_filter.mp hi
  have hj' := List.mem_filter.mp hj
  have hin : i < points.length := List.mem_range.mp hi'.1
  have hjn : j < points.length := List.mem_range.mp hj'.1
  intro hkeq
  simp only [Function.comp] at hkeq
  have hitk : i < (points.take j).length := by
    simp only [List.length_take]
    omega
  have hmemtake : points.getD i z0 ∈ points.take j := by
    have hmem := List.getElem_mem hitk
    rwa [List.getElem_take, ← List.getD_eq_getElem points z0 hin] at hmem
  have h2 := List.mem_map_of_mem (gridCell s) hmemtake
  rw [hkeq] at h2
  have hmarked : gridMarked s points j = true := by
    unfold gridMarked
    exact decide_eq_true h2
  have hfalse : (! gridMarked s points j) = true := hj'.2
  rw [hmarked] at hfalse
  simp at hfalse

theorem simplifyCloud_of_keys_nodup (l : PointList) (s : ℚ)
    (hn : (l.map (gridCell s)).Nodup) : simplifyCloud l s = l := by
  unfold simplifyCloud
  rw [List.filter_eq_self.mpr, map_getD_range]
  intro i hi
  rw [gridMarked_eq_false_of_nodup s l hn i (List.mem_range.mp hi)]
  rfl

/-- Claim C8: the Grid Simplifier is idempotent — for every point cloud and
every cell size `s > 0`, applying `simplifyCloud` with the same cell size to
its own output changes nothing further. -/
theorem simplifyCloud_idempotent (points : PointList) (cell_size : ℚ)
    (h : 0 < cell_size) :
    simplifyCloud (simplifyCloud points cell_size) cell_size
      = simplifyCloud points cell_size :=
  simplifyCloud_of_keys_nodup _ _ (simplifyCloud_keys_nodup points cell_size)

/-- Witness for C8: concrete run at cell size 1. -/
theorem simplifyCloud_idempotent_witness :
    (0 : ℚ) < 1 ∧ simplifyCloud (simplifyCloud [z0, ⟨5, 0, 0⟩] 1) 1
      = simplifyCloud [z0, ⟨5, 0, 0⟩] 1 :=
  ⟨by norm_num, simplifyCloud_idempotent [z0, ⟨5, 0, 0⟩] 1 (by norm_num)⟩

/-- Claim C3, counterexample: with cell size `-1 ≤ 0` the call does not fail
with a configuration error — the simplification runs anyway and destructively
mutates the cloud (the duplicate point is merged), so the input is not
reported back unmodified. -/
theorem simplifyCloud_negative_cell_size_mutates :
    simplifyCloud [z0, z0] (-1) ≠ [z0, z0] := by
  have h : simplifyCloud [z0, z0] (-1) = [z0] := by
    simp [simplifyCloud, gridMarked, List.range_succ]
  rw [h]
  simp

/-- Claim C3, amended: `simplifyCloud` performs no cell-size validation and
has no error channel; for `s ≤ 0` the grid simplification is applied
unconditionally and the result is a subsequence of the input (possibly a
strict one). -/
theorem simplifyCloud_no_validation (points : PointList) (cell_size : ℚ)
    (h : cell_size ≤ 0) : (simplifyCloud points cell_size).Sublist points :=
  filterIdx_sublist points _

/-- Witness for the amended C3 theorem at cell size `-1`. -/
theorem simplifyCloud_no_validation_witness :
    (-1 : ℚ) ≤ 0 ∧ (simplifyCloud [z0, z0] (-1)).Sublist [z0, z0] :=
  ⟨by norm_num, simplifyCloud_no_validation [z0, z0] (-1) (by norm_num)⟩

/-! ## Outlier Filter (src/ofxCGAL.cpp lines 5-22)

`removeOutliers` forwards the cloud, `removed_percentage` and
`nb_neighbors` unchecked to `CGAL::remove_outliers` and erases the tail
the library hands back.  The library is modelled from the spec (4.1 and
the §9 invariant): score each point by its average squared distance to
its `nb_neighbors` nearest neighbours — the k-NN search returns only the
neighbours that exist, hence at most `|cloud| - 1` of them — and remove
the `removed_percentage`% of points with the highest scores (deterministic
index tie-break), the retained points keeping their relative order. -/

/-- Squared Euclidean distance between two points. -/
def sqDist (a b : Point_3) : ℚ :=
  (a.x - b.x) ^ 2 + (a.y - b.y) ^ 2 + (a.z - b.z) ^ 2

/-- The average of a list of rationals (`0` for the empty list). -/
def avgList (l : List ℚ) : ℚ :=
  if l.length = 0 then 0 else l.sum / (l.length : ℚ)

/-- Modelled from the spec: outlier score of point `i` — average squared
distance to its `nb_neighbors` nearest neighbours (all other points,
sorted by distance, truncated to the requested neighbour count). -/
def knnAvgSqDist (points : PointList) (nb_neighbors : ℤ) (i : ℕ) : ℚ :=
  avgList ((((points.eraseIdx i).map
      (fun q => sqDist (points.getD i z0) q)).mergeSort
        (fun a b => decide (a ≤ b))).take nb_neighbors.toNat)

/-- The outlier scores of all points, in index order. -/
def outlierScores (points : PointList) (nb_neighbors : ℤ) : List ℚ :=
  (List.range points.length).map (fun i => knnAvgSqDist points nb_neighbors i)

/-- Score lookup by index (`0` out of range). -/
def scoreAt (points : PointList) (nb_neighbors : ℤ) (i : ℕ) : ℚ :=
  (outlierScores points nb_neighbors).getD i 0

/-- Modelled from the spec (§8): the number of removed points is
`round(removed_percentage/100 · n)`, clamped to `[0, n]`. -/
def nbPointsToRemove (n : ℕ) (removed_percentage : ℚ) : ℕ :=
  min n (Int.toNat ⌊removed_percentage * (n : ℚ) / 100 + 1 / 2⌋)

/-- Modelled from the spec: the indices marked for removal — the
`nbPointsToRemove` highest-scored indices, with a deterministic
score-descending, index-ascending ranking. -/
def outlierRemovedIdx (points : PointList) (removed_percentage : ℚ)
    (nb_neighbors : ℤ) : List ℕ :=
  ((List.range points.length).mergeSort (fun i j =>
      decide (scoreAt points nb_neighbors j < scoreAt points nb_neighbors i
        ∨ (scoreAt points nb_neighbors i = scoreAt points nb_neighbors j
            ∧ i ≤ j)))).take
    (nbPointsToRemove points.length removed_percentage)

/-- src/ofxCGAL.cpp lines 5-22: outlier removal with the erase-remove
idiom; the retained points are exactly the unmarked ones, in input order.
`nb_neighbors` is forwarded unmodified — the wrapper contains no
rejection and no clamping logic. -/
def removeOutliers (points : PointList) (removed_percentage : ℚ)
    (nb_neighbors : ℤ) : PointList :=
  ((List.range points.length).filter (fun i =>
      ! decide (i ∈ outlierRemovedIdx points removed_percentage nb_neighbors))).map
    (fun i => points.getD i z0)

/-- Claim C4: for a neighborhood size `nb_neighbors` at least the cloud
size, `removeOutliers` proceeds without error and behaves exactly as if
`nb_neighbors` had been clamped to `|cloud| - 1`: the k-NN search can
return only the `|cloud| - 1` other points, so the neighbor statistics —
and hence the whole call — coincide with those of the clamped value. -/
theorem removeOutliers_clamps (points : PointList) (removed_percentage : ℚ)
    (nb_neighbors : ℤ) (h : (points.length : ℤ) ≤ nb_neighbors) :
    removeOutliers points removed_percentage nb_neighbors
      = removeOutliers points removed_percentage ((points.length : ℤ) - 1) := by
  have hsa : scoreAt points nb_neighbors
      = scoreAt points ((points.length : ℤ) - 1) := by
    funext i
    unfold scoreAt
    refine congrArg (fun l => List.getD l i 0) ?_
    unfold outlierScores
    refine List.map_congr_left ?_
    intro j hj
    have hjn : j < points.length := List.mem_range.mp hj
    unfold knnAvgSqDist
    refine congrArg avgList ?_
    have hl : (((points.eraseIdx j).map
        (fun q => sqDist (points.getD j z0) q)).mergeSort
          (fun a b => decide (a ≤ b))).length = points.length - 1 := by
      rw [List.length_mergeSort, List.length_map,
        List.length_eraseIdx_of_lt hjn]
    rw [List.take_of_length_le (by rw [hl]; omega),
      List.take_of_length_le (by rw [hl]; omega)]
  have hidx : outlierRemovedIdx points removed_percentage nb_neighbors
      = outlierRemovedIdx points removed_percentage ((points.length : ℤ) - 1) := by
    unfold outlierRemovedIdx
    rw [hsa]
  unfold removeOutliers
  rw [hidx]

/-- Witness for C4: a two-point cloud with `nb_neighbors = 5 ≥ 2`. -/
theorem removeOutliers_clamps_witness :
    (([z0, ⟨1, 0, 0⟩] : PointList).length : ℤ) ≤ 5 ∧
    removeOutliers [z0, ⟨1, 0, 0⟩] 50 5
      = removeOutliers [z0, ⟨1, 0, 0⟩] 50
          ((([z0, ⟨1, 0, 0⟩] : PointList).length : ℤ) - 1) :=
  ⟨by norm_num, removeOutliers_clamps [z0, ⟨1, 0, 0⟩] 50 5 (by norm_num)⟩

/-! ## Normal Orienter (src/ofxCGAL.cpp lines 72-91)

`orientNormals` calls `CGAL::mst_orient_normals`, which returns the
iterator separating oriented points from the unoriented suffix, and
erases that suffix iff `trim` is set.  The MST propagation itself is
heuristic; it is modelled from the spec (4.5, §9) by two explicit
function parameters: `flag` says which input indices the algorithm
manages to orient, `fix` gives the (possibly flipped) normal assigned to
each point.  Per the spec's §9 invariant, oriented points keep their
relative order, followed by the unoriented suffix. -/

/-- Indices the MST propagation orients, in input order. -/
def orientedIdx (flag : PointVectorList → ℤ → ℕ → Bool)
    (points : PointVectorList) (nb_neighbors : ℤ) : List ℕ :=
  (List.range points.length).filter (fun i => flag points nb_neighbors i)

/-- Indices the MST propagation fails to orient, in input order. -/
def unorientedIdx (flag : PointVectorList → ℤ → ℕ → Bool)
    (points : PointVectorList) (nb_neighbors : ℤ) : List ℕ :=
  (List.range points.length).filter (fun i => ! flag points nb_neighbors i)

/-- Modelled from the spec: `CGAL::mst_orient_normals` reorders the cloud
as oriented points (in order) followed by the unoriented suffix, assigns
each point its propagated normal, and returns the boundary position
(the C++ iterator `unoriented_points_begin`). -/
def mst_orient_normals (flag : PointVectorList → ℤ → ℕ → Bool)
    (fix : PointVectorList → ℤ → ℕ → Vector_3)
    (points : PointVectorList) (nb_neighbors : ℤ) : PointVectorList × ℕ :=
  ((orientedIdx flag points nb_neighbors
      ++ unorientedIdx flag points nb_neighbors).map
    (fun i => ((points.getD i pv0).1, fix points nb_neighbors i)),
   (orientedIdx flag points nb_neighbors).length)

/-- src/ofxCGAL.cpp lines 72-91: run the MST orientation; if `trim` is
set, erase from `unoriented_points_begin` to the end. -/
def orientNormals (flag : PointVectorList → ℤ → ℕ → Bool)
    (fix : PointVectorList → ℤ → ℕ → Vector_3)
    (points : PointVectorList) (nb_neighbors : ℤ) (trim : Bool) :
    PointVectorList :=
  if trim then
    (mst_orient_normals flag fix points nb_neighbors).1.take
      (mst_orient_normals flag fix points nb_neighbors).2
  else (mst_orient_normals flag fix points nb_neighbors).1

theorem length_filter_add_length_filter_neg (l : List ℕ) (q : ℕ → Bool) :
    (l.filter q).length + (l.filter (fun a => ! q a)).length = l.length := by
  induction l with
  | nil => rfl
  | cons a t ih =>
    cases hq : q a <;> simp [List.filter_cons, hq, ← ih] <;> omega

theorem orientNormals_true_eq (flag : PointVectorList → ℤ → ℕ → Bool)
    (fix : PointVectorList → ℤ → ℕ → Vector_3)
    (points : PointVectorList) (nb_neighbors : ℤ) :
    orientNormals flag fix points nb_neighbors true
      = (orientedIdx flag points nb_neighbors).map
          (fun i => ((points.getD i pv0).1, fix points nb_neighbors i)) := by
  unfold orientNormals mst_orient_normals
  rw [if_pos rfl, List.map_append,
    List.take_left' (List.length_map _ _)]

/-- Claim C7: with `trim = true`, `orientNormals` discards exactly the
unoriented suffix — the result is the untrimmed result truncated at the
oriented-point count, its length is that count, hence at most the input
length; with `trim = false` all points are retained and the length is
unchanged. -/
theorem orientNormals_trim_behaviour (flag : PointVectorList → ℤ → ℕ → Bool)
    (fix : PointVectorList → ℤ → ℕ → Vector_3)
    (points : PointVectorList) (nb_neighbors : ℤ) :
    orientNormals flag fix points nb_neighbors true
        = (orientNormals flag fix points nb_neighbors false).take
            (orientedIdx flag points nb_neighbors).length
    ∧ (orientNormals flag fix points nb_neighbors true).length
        = (orientedIdx flag points nb_neighbors).length
    ∧ (orientNormals flag fix points nb_neighbors true).length
        ≤ points.length
    ∧ (orientNormals flag fix points nb_neighbors false).length
        = points.length := by
  have hlenf : (orientNormals flag fix points nb_neighbors false).length
      = points.length := by
    unfold orientNormals mst_orient_normals orientedIdx unorientedIdx
    rw [if_neg (by simp), List.length_map, List.length_append,
      length_filter_add_length_filter_neg, List.length_range]
  refine ⟨rfl, ?_, ?_, hlenf⟩
  · rw [orientNormals_true_eq, List.length_map]
  · rw [orientNormals_true_eq, List.length_map]
    calc (orientedIdx flag points nb_neighbors).length
        ≤ (List.range points.length).length := (List.filter_sublist _).length_le
      _ = points.length := List.length_range points.length

/-! ## Iterative Smoother (src/ofxCGAL.cpp lines 39-49)

`smoothCloud` runs `CGAL::jet_smooth_point_set` `iter` times (a C++
`for` loop, so a negative or zero `iter` runs no pass).  The jet fit is
modelled from the spec (4.3) as an explicit parameter `jetFit`: each
pass repositions every point using the current cloud (the neighbor
structure is rebuilt each pass), inserting and removing nothing. -/

/-- Modelled from the spec: one smoothing pass repositions each point
from the current cloud. -/
def jet_smooth_point_set (jetFit : PointList → ℤ → Point_3 → Point_3)
    (points : PointList) (nb_neighbors : ℤ) : PointList :=
  points.map (jetFit points nb_neighbors)

/-- The `for (k = 0; k < iter; k++)` loop of src/ofxCGAL.cpp line 45. -/
def smoothIter (jetFit : PointList → ℤ → Point_3 → Point_3)
    (nb_neighbors : ℤ) : ℕ → PointList → PointList
  | 0, points => points
  | Nat.succ m, points =>
      smoothIter jetFit nb_neighbors m
        (jet_smooth_point_set jetFit points nb_neighbors)

/-- src/ofxCGAL.cpp lines 39-49. -/
def smoothCloud (jetFit : PointList → ℤ → Point_3 → Point_3)
    (points : PointList) (nb_neighbors : ℤ) (iter : ℤ) : PointList :=
  smoothIter jetFit nb_neighbors iter.toNat points

theorem smoothIter_length (jetFit : PointList → ℤ → Point_3 → Point_3)
    (nb_neighbors : ℤ) (m : ℕ) (points : PointList) :
    (smoothIter jetFit nb_neighbors m points).length = points.length := by
  induction m generalizing points with
  | zero => rfl
  | succ m ih =>
    rw [smoothIter, ih, jet_smooth_point_set, List.length_map]

/-- Claim C6: for every jet-fit model, cloud, neighborhood size and
`iter ≥ 0`, `smoothCloud` preserves the point count exactly, and with
`iter = 0` it returns the cloud unchanged. -/
theorem smoothCloud_preserves_count (jetFit : PointList → ℤ → Point_3 → Point_3)
    (points : PointList) (nb_neighbors : ℤ) (iter : ℤ) (h : 0 ≤ iter) :
    (smoothCloud jetFit points nb_neighbors iter).length = points.length
    ∧ (iter = 0 → smoothCloud jetFit points nb_neighbors iter = points) := by
  refine ⟨smoothIter_length jetFit nb_neighbors iter.toNat points, ?_⟩
  intro h0
  rw [h0]
  rfl

/-- Witness for C6: two passes of a concrete jet fit on a one-point
cloud. -/
theorem smoothCloud_preserves_count_witness :
    (0 : ℤ) ≤ 2
    ∧ ((smoothCloud (fun _ _ _ => z0) [z0] 8 2).length
          = ([z0] : PointList).length
        ∧ ((2 : ℤ) = 0 → smoothCloud (fun _ _ _ => z0) [z0] 8 2 = [z0])) :=
  ⟨by norm_num,
    smoothCloud_preserves_count (fun _ _ _ => z0) [z0] 8 2 (by norm_num)⟩

/-- Claim C5: every filtering stage that shrinks the cloud —
`removeOutliers`, `simplifyCloud`, and `orientNormals` with `trim` —
preserves the relative order of the retained points (the result is a
subsequence of the input), and the retained points are exactly the input
points not marked for removal by that stage's algorithm (not in
`outlierRemovedIdx`, not `gridMarked`, respectively flagged as oriented). -/
theorem filtering_stages_preserve_order (points : PointList)
    (removed_percentage : ℚ) (nb_neighbors : ℤ) (cell_size : ℚ)
    (flag : PointVectorList → ℤ → ℕ → Bool)
    (fix : PointVectorList → ℤ → ℕ → Vector_3)
    (pv : PointVectorList) (nb2 : ℤ) :
    (removeOutliers points removed_percentage nb_neighbors).Sublist points
    ∧ removeOutliers points removed_percentage nb_neighbors
        = ((List.range points.length).filter (fun i =>
            ! decide (i ∈ outlierRemovedIdx points removed_percentage
              nb_neighbors))).map (fun i => points.getD i z0)
    ∧ (simplifyCloud points cell_size).Sublist points
    ∧ simplifyCloud points cell_size
        = ((List.range points.length).filter
            (fun i => ! gridMarked cell_size points i)).map
          (fun i => points.getD i z0)
    ∧ ((orientNormals flag fix pv nb2 true).map Prod.fst).Sublist
        (pv.map Prod.fst)
    ∧ orientNormals flag fix pv nb2 true
        = (orientedIdx flag pv nb2).map
            (fun i => ((pv.getD i pv0).1, fix pv nb2 i)) := by
  refine ⟨filterIdx_sublist points _, rfl, filterIdx_sublist points _, rfl,
    ?_, orientNormals_true_eq flag fix pv nb2⟩
  have heq : (orientNormals flag fix pv nb2 true).map Prod.fst
      = ((List.range (pv.map Prod.fst).length).filter
          (fun i => flag pv nb2 i)).map
        (fun i => (pv.map Prod.fst).getD i z0) := by
    rw [orientNormals_true_eq, List.map_map, List.length_map]
    unfold orientedIdx
    refine List.map_congr_left ?_
    intro i hi
    have hin : i < pv.length :=
      List.mem_range.mp (List.mem_filter.mp hi).1
    simp only [Function.comp]
    rw [List.getD_eq_getElem pv pv0 hin,
      List.getD_eq_getElem (pv.map Prod.fst) z0 (by simpa using hin),
      List.getElem_map]
  rw [heq]
  exact filterIdx_sublist (pv.map Prod.fst) _

/-! ## Normal Estimator (src/ofxCGAL.cpp lines 51-70)

`estimateNormals` resizes the output vector to the input size, copies
every input point into the `first` component, then calls
`CGAL::pca_estimate_normals`, which overwrites every `second` component
with a normal computed by PCA over point positions only.  The PCA plane
fit is modelled from the spec (4.4) as an explicit parameter `pca` that
sees the positions, the neighborhood size, and the query point. -/

/-- `point_vectors.resize(n)` of src/ofxCGAL.cpp line 55: keep the first
`n` elements, append value-initialised pairs if the vector grows. -/
def resizePV (point_vectors : PointVectorList) (n : ℕ) : PointVectorList :=
  point_vectors.take n ++ List.replicate (n - point_vectors.length) pv0

/-- The loop of src/ofxCGAL.cpp lines 56-58: overwrite the position
component of every pair with the corresponding input point. -/
def assignPositions (points : PointList) (pv : PointVectorList) :
    PointVectorList :=
  List.zipWith (fun p pr => (p, Prod.snd pr)) points pv

/-- Modelled from the spec: `CGAL::pca_estimate_normals` overwrites every
normal with a PCA estimate computed from the position components only. -/
def pca_estimate_normals (pca : PointList → ℤ → Point_3 → Vector_3)
    (pv : PointVectorList) (nb_neighbors : ℤ) : PointVectorList :=
  pv.map (fun pr => (Prod.fst pr, pca (pv.map Prod.fst) nb_neighbors (Prod.fst pr)))

/-- src/ofxCGAL.cpp lines 51-70. -/
def estimateNormals (pca : PointList → ℤ → Point_3 → Vector_3)
    (points : PointList) (point_vectors : PointVectorList)
    (nb_neighbors : ℤ) : PointVectorList :=
  pca_estimate_normals pca
    (assignPositions points (resizePV point_vectors points.length))
    nb_neighbors

theorem resizePV_length (point_vectors : PointVectorList) (n : ℕ) :
    (resizePV point_vectors n).length = n := by
  unfold resizePV
  rw [List.length_append, List.length_take, List.length_replicate]
  omega

theorem assignPositions_map_fst (points : PointList) (pv : PointVectorList)
    (hlen : points.length ≤ pv.length) :
    (assignPositions points pv).map Prod.fst = points := by
  induction points generalizing pv with
  | nil => rfl
  | cons p rest ih =>
    cases pv with
    | nil => simp at hlen
    | cons q qv =>
      unfold assignPositions at ih ⊢
      rw [List.zipWith_cons_cons, List.map_cons]
      rw [ih qv (by simpa using Nat.le_of_succ_le_succ hlen)]

theorem map_fst_pair_eq (A : PointVectorList) (g : Point_3 → Vector_3) :
    A.map (fun pr => (Prod.fst pr, g (Prod.fst pr)))
      = (A.map Prod.fst).map (fun p => (p, g p)) := by
  rw [List.map_map]
  rfl

/-- The net effect of `estimateNormals`: positions come from the input
cloud, normals from the PCA model over those positions; the prior
contents of the output vector are irrelevant. -/
theorem estimateNormals_eq_map (pca : PointList → ℤ → Point_3 → Vector_3)
    (points : PointList) (point_vectors : PointVectorList)
    (nb_neighbors : ℤ) :
    estimateNormals pca points point_vectors nb_neighbors
      = points.map (fun p => (p, pca points nb_neighbors p)) := by
  unfold estimateNormals pca_estimate_normals
  have hfst : (assignPositions points
      (resizePV point_vectors points.length)).map Prod.fst = points :=
    assignPositions_map_fst points _ (by rw [resizePV_length])
  rw [hfst, map_fst_pair_eq, hfst]

/-- Claim C9: `estimateNormals` produces an oriented point cloud of the
same length as the input whose i-th position component is the input's
i-th point (identical cardinality and ordering); the input cloud is a
read-only argument of the embedding. -/
theorem estimateNormals_positions (pca : PointList → ℤ → Point_3 → Vector_3)
    (points : PointList) (point_vectors : PointVectorList)
    (nb_neighbors : ℤ) :
    (estimateNormals pca points point_vectors nb_neighbors).length
        = points.length
    ∧ (estimateNormals pca points point_vectors nb_neighbors).map Prod.fst
        = points := by
  constructor
  · rw [estimateNormals_eq_map, List.length_map]
  · rw [estimateNormals_eq_map, List.map_map]
    have hid : (Prod.fst ∘ fun p => (p, pca points nb_neighbors p))
        = (id : Point_3 → Point_3) := rfl
    rw [hid, List.map_id]

/-- Claim C10: the result of `estimateNormals` is independent of the
prior contents of its output argument — any two prior states of
`point_vectors` lead to the same final state, because the operation
resizes to the input's size and overwrites every position and normal. -/
theorem estimateNormals_overwrites (pca : PointList → ℤ → Point_3 → Vector_3)
    (points : PointList) (nb_neighbors : ℤ)
    (old1 old2 : PointVectorList) :
    estimateNormals pca points old1 nb_neighbors
      = estimateNormals pca points old2 nb_neighbors := by
  rw [estimateNormals_eq_map, estimateNormals_eq_map]

/-! ## Surface Reconstructor (src/ofxCGAL.cpp lines 102-160)

`reconstructPoissonSurface(point_vectors, polyhedron)` takes NO tuning
parameters: `sm_angle = 20.0`, `sm_radius = 30`, `sm_distance = 0.375`
are local constants (lines 110-112), and the meshing criteria are built
from them (lines 144-146).  The function is declared `void`; on the two
failure paths (lines 126-127 and 154-155) it executes
`return EXIT_FAILURE;` — ill-formed in a `void` function, so no status
value can reach the caller — leaving the output polyhedron untouched.
The CGAL solver/mesher internals are modelled from the spec as an
explicit `PoissonModel` parameter. -/

/-- `PointWNList` = `std::vector<Point_with_normal>` of the missing
header; modelled from the spec: stage 6 consumes (position, normal)
pairs. -/
abbrev PointWNList := List (Point_3 × Vector_3)

/-- Modelled from the spec: the header's `convert` copies the
(position, normal) pairs into the `Point_with_normal` list consumed by
the reconstruction (src/ofxCGAL.cpp line 107). -/
def convert (point_vectors : PointVectorList) : PointWNList :=
  point_vectors

/-- The 3D Delaunay triangulation produced by `CGAL::make_surface_mesh`;
only its vertex count is inspected by the wrapper (line 154). -/
structure STr where
  number_of_vertices : ℕ

/-- The output mesh (CGAL `Polyhedron_3`): vertices and triangular faces
referencing vertices by index. -/
structure Polyhedron_3 where
  vertices : List Point_3
  faces : List (ℕ × ℕ × ℕ)

/-- Modelled from the spec: the CGAL solver and mesher behaviours the
wrapper composes — whether the implicit-function solve converges (4.7.b/c),
the average spacing (4.6), surface meshing from the (angle, size, error)
criteria (4.7.f), and facet extraction (4.7.h). -/
structure PoissonModel where
  compute_implicit_function : PointWNList → Bool
  compute_average_spacing : PointWNList → ℤ → ℚ
  make_surface_mesh : ℚ × ℚ × ℚ → PointWNList → STr
  output_surface_facets_to_polyhedron : STr → Polyhedron_3

/-- src/ofxCGAL.cpp line 110: `FT sm_angle = 20.0;` (hardcoded). -/
def sm_angle : ℚ := 20

/-- src/ofxCGAL.cpp line 111: `FT sm_radius = 30;` (hardcoded). -/
def sm_radius : ℚ := 30

/-- src/ofxCGAL.cpp line 112: `FT sm_distance = 0.375;` (hardcoded). -/
def sm_distance : ℚ := 3 / 8

/-- src/ofxCGAL.cpp lines 102-160: convert the pairs, solve the implicit
function (returning early, with the output polyhedron untouched, if the
solve does not converge), compute the average spacing with knn = 6, mesh
with criteria `(sm_angle, sm_radius·spacing, sm_distance·spacing)`
(lines 144-146), return early if the triangulation is empty, else
extract the facets into the polyhedron.  The C++ return type is `void`,
so the final polyhedron state is the only caller-visible outcome. -/
def reconstructPoissonSurface (m : PoissonModel)
    (point_vectors : PointVectorList) (polyhedron : Polyhedron_3) :
    Polyhedron_3 :=
  let points := convert point_vectors
  if m.compute_implicit_function points then
    let average_spacing := m.compute_average_spacing points 6
    let tr := m.make_surface_mesh
      (sm_angle, sm_radius * average_spacing, sm_distance * average_spacing)
      points
    if tr.number_of_vertices = 0 then polyhedron
    else m.output_surface_facets_to_polyhedron tr
  else polyhedron

/-- Modelled from the spec (4.7 contract): the Surface Reconstructor as
specified, taking the three relative tuning parameters from the caller
and scaling the size and error criteria by the average spacing. -/
def reconstructWithCriteria (m : PoissonModel) (angle radius distance : ℚ)
    (point_vectors : PointVectorList) (polyhedron : Polyhedron_3) :
    Polyhedron_3 :=
  let points := convert point_vectors
  if m.compute_implicit_function points then
    let average_spacing := m.compute_average_spacing points 6
    let tr := m.make_surface_mesh
      (angle, radius * average_spacing, distance * average_spacing) points
    if tr.number_of_vertices = 0 then polyhedron
    else m.output_surface_facets_to_polyhedron tr
  else polyhedron

/-- A model whose meshing step is sensitive to the angle criterion:
the triangulation has 1 vertex iff the angle bound is the hardcoded 20. -/
def poissonCexModel : PoissonModel where
  compute_implicit_function := fun _ => true
  compute_average_spacing := fun _ _ => 1
  make_surface_mesh := fun c _ => ⟨if c.1 = 20 then 1 else 2⟩
  output_surface_facets_to_polyhedron := fun tr =>
    ⟨List.replicate tr.number_of_vertices z0, []⟩

/-- Claim C1, counterexample: the claim says the produced mesh is governed
by the caller's three tuning values; but choosing angle 21 does not give
the mesh the spec's parameterized operation would produce for angle 21 —
the code meshes with its hardcoded angle 20 regardless. -/
theorem reconstructPoissonSurface_ignores_caller_angle :
    reconstructPoissonSurface poissonCexModel [] ⟨[], []⟩
      ≠ reconstructWithCriteria poissonCexModel 21 30 (3 / 8) [] ⟨[], []⟩ := by
  have hL : reconstructPoissonSurface poissonCexModel [] ⟨[], []⟩
      = ⟨[z0], []⟩ := by
    simp [reconstructPoissonSurface, poissonCexModel, convert,
      sm_angle, sm_radius, sm_distance]
  have hR : reconstructWithCriteria poissonCexModel 21 30 (3 / 8) [] ⟨[], []⟩
      = ⟨[z0, z0], []⟩ := by
    norm_num [reconstructWithCriteria, poissonCexModel, convert,
      List.replicate_succ]
  rw [hL, hR]
  intro hcontr
  have hlen := congrArg (fun q => q.vertices.length) hcontr
  simp at hlen

/-- Claim C1, amended: `reconstructPoissonSurface` accepts no tuning
parameters; for every solver model, input cloud and output polyhedron it
behaves exactly as the spec's parameterized reconstruction operation
invoked at the hardcoded values angle = 20 degrees, size multiplier = 30,
distance multiplier = 0.375 — those fixed criteria, scaled by the average
spacing, govern the mesh. -/
theorem reconstructPoissonSurface_fixed_criteria (m : PoissonModel)
    (point_vectors : PointVectorList) (polyhedron : Polyhedron_3) :
    reconstructPoissonSurface m point_vectors polyhedron
        = reconstructWithCriteria m 20 30 (3 / 8) point_vectors polyhedron
    ∧ sm_angle = 20 ∧ sm_radius = 30 ∧ sm_distance = 3 / 8 :=
  ⟨rfl, rfl, rfl, rfl⟩

/-- Claim C2: when the implicit-function solve does not converge, the
call returns with the output polyhedron exactly as it was — no mesh is
produced (and, the embedding being pure, the input cloud is untouched).
The C++ `return EXIT_FAILURE;` inside a `void` function cannot deliver
any error to the caller, which is the code bug recorded for this claim. -/
theorem reconstructPoissonSurface_nonconvergence (m : PoissonModel)
    (point_vectors : PointVectorList) (polyhedron : Polyhedron_3)
    (h : m.compute_implicit_function (convert point_vectors) = false) :
    reconstructPoissonSurface m point_vectors polyhedron = polyhedron := by
  simp [reconstructPoissonSurface, h]

/-- A model whose implicit-function solve never converges. -/
def poissonFailModel : PoissonModel where
  compute_implicit_function := fun _ => false
  compute_average_spacing := fun _ _ => 0
  make_surface_mesh := fun _ _ => ⟨0⟩
  output_surface_facets_to_polyhedron := fun _ => ⟨[], []⟩

/-- Witness for C2: a non-converging solve leaves a concrete polyhedron
unmodified. -/
theorem reconstructPoissonSurface_nonconvergence_witness :
    poissonFailModel.compute_implicit_function (convert []) = false
    ∧ reconstructPoissonSurface poissonFailModel [] ⟨[z0], []⟩
        = ⟨[z0], []⟩ :=
  ⟨rfl, reconstructPoissonSurface_nonconvergence poissonFailModel []
    ⟨[z0], []⟩ rfl⟩

end ofxCGAL
